import Mathlib

/-!
Shallow embedding of the hacksignal scoring-and-enrichment pipeline
(src/backend/enrichment.py, src/backend/scoring.py, src/backend/alert.py,
routing loop of src/backend/demo_run.py).

Modelling conventions:
* Python floats are modelled as exact rationals (`ℚ`); Python ints as `ℕ`/`ℤ`.
* Python strings are Lean `String`s; `str.lower()` is ASCII lowering
  (`Char.toLower`), and the regex classes `\d` / `\s` are modelled as the
  ASCII digits / ASCII whitespace, which is faithful on the texts the
  claims are about.
* The regular expressions of the source are hand-compiled to dedicated
  matcher functions over `List Char`.  Each matcher reproduces
  `re.search` semantics for its pattern: the leftmost starting position
  wins, quantifiers are greedy, and the one place where Python's engine
  backtracks on these patterns (the `\d{1,2}` day group of the deadline
  regex) is reproduced explicitly.
* Fallible Python code (`raise` / `except`) is modelled with `Option` or
  `Except String`.
-/

namespace HackSignal

/-! Generic string helpers -/

/-- ASCII lowering of a string, modelling Python `str.lower()` on the
ASCII fragment. -/
def strLower (s : String) : String :=
  ⟨s.data.map Char.toLower⟩

/-- Substring test on character lists, modelling Python `needle in hay`
for strings (the empty needle is contained in everything). -/
def listSubstr (needle : List Char) : List Char → Bool
  | [] => needle.isEmpty
  | c :: t => needle.isPrefixOf (c :: t) || listSubstr needle t

/-- Substring test on strings, modelling Python `needle in hay`. -/
def strSubstr (hay needle : String) : Bool :=
  needle.data.isPrefixOf hay.data || listSubstr needle.data hay.data

/-- Whitespace class of Python regexes (`\s`), ASCII fragment. -/
def pyIsSpace (c : Char) : Bool :=
  c = ' ' || c = '\t' || c = '\n' || c = '\x0d' || c = '\x0b' || c = '\x0c'

/-- Numeric value of a list of ASCII digits, modelling `int(...)` on the
digit-only strings produced by the `\d+` groups. -/
def parseNat (ds : List Char) : ℕ :=
  ds.foldl (fun acc c => 10 * acc + (c.toNat - 48)) 0

/-- Value of a decimal numeral (digits with at most one point), modelling
`float(...)` on the comma-stripped strings produced by the prize groups. -/
def parseDec (cs : List Char) : ℚ :=
  let ip := cs.takeWhile (fun c => c ≠ '.')
  let rest := cs.dropWhile (fun c => c ≠ '.')
  match rest with
  | [] => (parseNat ip : ℚ)
  | _ :: fp => (parseNat ip : ℚ) + (parseNat fp : ℚ) / ((10 : ℚ) ^ fp.length)

/-- Leftmost-position search: try the positional matcher at every suffix
of the text from the left, modelling `re.search`. -/
def searchAt {α : Type} (f : List Char → Option α) : List Char → Option α
  | [] => f []
  | c :: t =>
    match f (c :: t) with
    | some r => some r
    | none => searchAt f t

/-- Case-insensitive literal match at the current position (the
`re.IGNORECASE` flag); returns the matched characters and the rest. -/
def tryLit (lit : List Char) (cs : List Char) : Option (List Char × List Char) :=
  if (cs.take lit.length).map Char.toLower = lit then
    some (cs.take lit.length, cs.drop lit.length)
  else none

/-! Prize-pattern matchers (src/backend/enrichment.py, `_parse_prize_patterns`).
Each positional matcher returns `(group0, group1)`: the whole matched text
and the first capture group. -/

/-- Greedy `(?:,\d{3})*`: comma groups followed by exactly three digits;
returns the consumed characters and the rest. -/
def matchCommaGroups : List Char → List Char × List Char
  | ',' :: a :: b :: c :: rest =>
    if a.isDigit && b.isDigit && c.isDigit then
      let p := matchCommaGroups rest
      (',' :: a :: b :: c :: p.1, p.2)
    else ([], ',' :: a :: b :: c :: rest)
  | cs => ([], cs)

/-- Optional `(?:\.\d{2})?`: a point followed by exactly two digits. -/
def matchFrac2 : List Char → List Char × List Char
  | '.' :: a :: b :: rest =>
    if a.isDigit && b.isDigit then (['.', a, b], rest)
    else ([], '.' :: a :: b :: rest)
  | cs => ([], cs)

/-- Optional `(?:\.\d+)?`: a point followed by one or more digits. -/
def matchFracPlus : List Char → List Char × List Char
  | '.' :: rest =>
    let ds := rest.takeWhile Char.isDigit
    if ds.isEmpty then ([], '.' :: rest)
    else ('.' :: ds, rest.dropWhile Char.isDigit)
  | cs => ([], cs)

/-- Core of `(\d+(?:,\d{3})*(?:\.\d{2})?)`: the captured amount text and
the rest, or `none` when no digit starts here. -/
def amountCore (cs : List Char) : Option (List Char × List Char) :=
  let ds := cs.takeWhile Char.isDigit
  if ds.isEmpty then none
  else
    let p := matchCommaGroups (cs.dropWhile Char.isDigit)
    let q := matchFrac2 p.2
    some (ds ++ p.1 ++ q.1, q.2)

/-- Positional matcher for `\$(amount)` and `€(amount)` (patterns 1 and 3). -/
def tryMoney (sym : Char) : List Char → Option (List Char × List Char)
  | c :: rest =>
    if c = sym then (amountCore rest).map (fun p => (c :: p.1, p.1)) else none
  | [] => none

/-- Positional matcher for `\$(\d+)k` and `€(\d+)k` (patterns 2 and 4),
case-insensitive on the trailing `k`. -/
def tryMoneyK (sym : Char) : List Char → Option (List Char × List Char)
  | c :: rest =>
    if c = sym then
      let ds := rest.takeWhile Char.isDigit
      if ds.isEmpty then none
      else
        match rest.dropWhile Char.isDigit with
        | k :: _ => if k.toLower = 'k' then some (c :: (ds ++ [k]), ds) else none
        | [] => none
    else none
  | [] => none

/-- Positional matcher for `(\d+(?:\.\d+)?)\s*NAME` (the ETH and BTC
patterns), case-insensitive on the currency name. -/
def tryCrypto (name : List Char) (cs : List Char) : Option (List Char × List Char) :=
  let ds := cs.takeWhile Char.isDigit
  if ds.isEmpty then none
  else
    let p := matchFracPlus (cs.dropWhile Char.isDigit)
    let ws := p.2.takeWhile pyIsSpace
    match tryLit name (p.2.dropWhile pyIsSpace) with
    | some (m, _) => some (ds ++ p.1 ++ ws ++ m, ds ++ p.1)
    | none => none

/-- Positional matcher for `(\d+(?:,\d{3})*)\s*USD` (pattern 7),
case-insensitive on `USD`. -/
def tryUsdWord (cs : List Char) : Option (List Char × List Char) :=
  let ds := cs.takeWhile Char.isDigit
  if ds.isEmpty then none
  else
    let p := matchCommaGroups (cs.dropWhile Char.isDigit)
    let ws := p.2.takeWhile pyIsSpace
    match tryLit [ 'u', 's', 'd' ] (p.2.dropWhile pyIsSpace) with
    | some (m, _) => some (ds ++ p.1 ++ ws ++ m, ds ++ p.1)
    | none => none

/-- Positional matcher for `(\d+(?:,\d{3})*)\s*dollars?` (pattern 8),
case-insensitive, with the optional trailing `s`. -/
def tryDollarsWord (cs : List Char) : Option (List Char × List Char) :=
  let ds := cs.takeWhile Char.isDigit
  if ds.isEmpty then none
  else
    let p := matchCommaGroups (cs.dropWhile Char.isDigit)
    let ws := p.2.takeWhile pyIsSpace
    match tryLit [ 'd', 'o', 'l', 'l', 'a', 'r' ] (p.2.dropWhile pyIsSpace) with
    | some (m, rest) =>
      match rest with
      | s :: _ =>
        if s.toLower = 's' then some (ds ++ p.1 ++ ws ++ m ++ [s], ds ++ p.1)
        else some (ds ++ p.1 ++ ws ++ m, ds ++ p.1)
      | [] => some (ds ++ p.1 ++ ws ++ m, ds ++ p.1)
    | none => none

/-- Mock conversion rates of `_get_currency_conversion_rate`; `none`
models the `CurrencyNotSupportedError` branch. -/
def _get_currency_conversion_rate (c : String) : Option ℚ :=
  if c = ("USD") then some 1
  else if c = ("ETH") then some 2800
  else if c = ("BTC") then some 45000
  else if c = ("EUR") then some (92 / 100)
  else none

/-- Ordered prize pattern list of `_parse_prize_patterns`: positional
matcher together with the associated currency. -/
def prizePatterns : List ((List Char → Option (List Char × List Char)) × String) :=
  [ (tryMoney '$', ("USD")),
    (tryMoneyK '$', ("USD")),
    (tryMoney '€', ("EUR")),
    (tryMoneyK '€', ("EUR")),
    (tryCrypto [ 'e', 't', 'h' ], ("ETH")),
    (tryCrypto [ 'b', 't', 'c' ], ("BTC")),
    (tryUsdWord, ("USD")),
    (tryDollarsWord, ("USD")) ]

/-- Model of `extract_prize_amount`: first matching pattern in declared
order wins; `none` models the final `ValueError`.  The `"k" in
match.group(0).lower()` shorthand check and the non-USD conversion are
reproduced verbatim; the conversion-rate lookup cannot fail here because
every pattern currency is in the mock table (the `getD 1` default is the
unreachable `CurrencyNotSupportedError` branch). -/
def extract_prize_amount (text : String) : Option (ℚ × String) :=
  prizePatterns.findSome? fun pc =>
    match searchAt pc.1 text.data with
    | none => none
    | some (g0, g1) =>
      let amount := parseDec (g1.filter (fun c => c ≠ ','))
      let amount := if (g0.map Char.toLower).contains 'k' then amount * 1000 else amount
      let amount :=
        if pc.2 ≠ ("USD") then amount * ((_get_currency_conversion_rate pc.2).getD 1)
        else amount
      some (amount, pc.2)

/-! Duration-pattern matchers (`_parse_duration_patterns`).  A positional
matcher returns `some (some g1)` for a match of a pattern with a group,
`some none` for a match of a groupless pattern. -/

/-- Positional matcher for `(\d+)\s*WORD` (the direct hour and day
patterns), case-insensitive on the word. -/
def tryNumWord (word : List Char) (cs : List Char) : Option (Option (List Char)) :=
  let ds := cs.takeWhile Char.isDigit
  if ds.isEmpty then none
  else
    match tryLit word ((cs.dropWhile Char.isDigit).dropWhile pyIsSpace) with
    | some _ => some (some ds)
    | none => none

/-- Positional matcher for `weekend\s*WORD`, case-insensitive. -/
def tryWeekend (word : List Char) (cs : List Char) : Option (Option (List Char)) :=
  match tryLit [ 'w', 'e', 'e', 'k', 'e', 'n', 'd' ] cs with
  | some (_, rest) =>
    match tryLit word (rest.dropWhile pyIsSpace) with
    | some _ => some none
    | none => none
  | none => none

/-- Positional matcher for `(\d+)[\-\s]*WORD\s*hackathon`, case-insensitive. -/
def tryNumWordHackathon (word : List Char) (cs : List Char) : Option (Option (List Char)) :=
  let ds := cs.takeWhile Char.isDigit
  if ds.isEmpty then none
  else
    let rest := (cs.dropWhile Char.isDigit).dropWhile (fun c => c = '-' || pyIsSpace c)
    match tryLit word rest with
    | some (_, rest2) =>
      match tryLit [ 'h', 'a', 'c', 'k', 'a', 't', 'h', 'o', 'n' ] (rest2.dropWhile pyIsSpace) with
      | some _ => some (some ds)
      | none => none
    | none => none

/-- Ordered duration pattern list of `_parse_duration_patterns`:
positional matcher together with the hour multiplier. -/
def durationPatterns : List ((List Char → Option (Option (List Char))) × ℕ) :=
  [ (tryNumWord [ 'h', 'o', 'u', 'r' ], 1),
    (tryNumWord [ 'd', 'a', 'y' ], 24),
    (tryWeekend [ 's', 'p', 'r', 'i', 'n', 't' ], 48),
    (tryWeekend [ 'h', 'a', 'c', 'k', 'a', 't', 'h', 'o', 'n' ], 48),
    (tryNumWordHackathon [ 'h', 'o', 'u', 'r' ], 1),
    (tryNumWordHackathon [ 'd', 'a', 'y' ], 24) ]

/-- Model of `parse_duration`: first matching pattern wins; a grouped
match yields `int(group 1) * multiplier`, a groupless match yields the
multiplier; `none` models the final `ValueError`. -/
def parse_duration (text : String) : Option ℕ :=
  durationPatterns.findSome? fun pm =>
    match searchAt pm.1 text.data with
    | none => none
    | some g? =>
      some (match g? with
            | some g => parseNat g * pm.2
            | none => pm.2)

/-- Model of `calculate_roi`: `ValueError` for a non-positive duration,
otherwise the exact quotient (the `TypeError` branch is ruled out by
typing). -/
def calculate_roi (prize_value : ℚ) (duration_hours : ℚ) : Except String ℚ :=
  if duration_hours ≤ 0 then .error ("Duration must be positive")
  else .ok (prize_value / duration_hours)

/-! Deadline detection (`detect_deadline`). -/

/-- Month names of the alternation in the deadline regex, with their
month numbers, in declared order. -/
def monthNames : List (List Char × ℕ) :=
  [ (("january").data, 1), (("february").data, 2), (("march").data, 3),
    (("april").data, 4), (("may").data, 5), (("june").data, 6),
    (("july").data, 7), (("august").data, 8), (("september").data, 9),
    (("october").data, 10), (("november").data, 11), (("december").data, 12) ]

/-- Optional ordinal suffix `(?:st|nd|rd|th)?`, case-insensitive; skipping
it can never defeat the rest of the pattern, so greedy consumption is
faithful here. -/
def skipOrdinal (cs : List Char) : List Char :=
  match cs with
  | a :: b :: rest =>
    let s := [ a.toLower, b.toLower ]
    if s = [ 's', 't' ] || s = [ 'n', 'd' ] || s = [ 'r', 'd' ] || s = [ 't', 'h' ] then rest
    else cs
  | _ => cs

/-- Tail of the deadline pattern after the day group:
`(?:st|nd|rd|th)?(?:,)?\s*(\d{4})`; returns the year. -/
def afterDay (cs : List Char) : Option ℕ :=
  let cs := skipOrdinal cs
  let cs := match cs with
            | ',' :: t => t
            | _ => cs
  let ys := (cs.dropWhile pyIsSpace).takeWhile Char.isDigit
  if 4 ≤ ys.length then some (parseNat (ys.take 4)) else none

/-- Positional matcher for the deadline regex
`(MONTH)\s+(\d{1,2})(?:st|nd|rd|th)?(?:,)?\s*(\d{4})`; the `\d{1,2}` day
group is greedy with backtracking (two digits first, then one). -/
def tryDeadline (cs : List Char) : Option (ℕ × ℕ × ℕ) :=
  monthNames.findSome? fun mn =>
    match tryLit mn.1 cs with
    | none => none
    | some (_, rest) =>
      let ws := rest.takeWhile pyIsSpace
      if ws.isEmpty then none
      else
        let cs2 := rest.dropWhile pyIsSpace
        let ds := cs2.takeWhile Char.isDigit
        if ds.isEmpty then none
        else if ds.length = 1 then
          (afterDay (cs2.drop 1)).map fun y => (mn.2, parseNat (ds.take 1), y)
        else
          match afterDay (cs2.drop 2) with
          | some y => some (mn.2, parseNat (ds.take 2), y)
          | none => (afterDay (cs2.drop 1)).map fun y => (mn.2, parseNat (ds.take 1), y)

/-- Day count of a month, with the Gregorian leap rule, as validated by
`datetime.strptime`. -/
def daysInMonth (m y : ℕ) : ℕ :=
  if m = 2 then
    if y % 4 = 0 && (y % 100 ≠ 0 || y % 400 = 0) then 29 else 28
  else if m = 4 || m = 6 || m = 9 || m = 11 then 30
  else 31

/-- Decimal numeral of `n` left-padded with zeros to width 2. -/
def pad2 (n : ℕ) : String :=
  if n < 10 then ("0") ++ toString n else toString n

/-- Decimal numeral of `n` left-padded with zeros to width 4. -/
def pad4 (n : ℕ) : String :=
  if n < 10 then ("000") ++ toString n
  else if n < 100 then ("00") ++ toString n
  else if n < 1000 then ("0") ++ toString n
  else toString n

/-- Model of `detect_deadline`: leftmost regex match, then `strptime`
validation (an out-of-range day or a year 0 raises `ValueError`, which the
source swallows and returns `None` — the search is not resumed), then
`datetime.isoformat() + "Z"` rendering. -/
def detect_deadline (text : String) : Option String :=
  match searchAt tryDeadline (strLower text).data with
  | none => none
  | some (m, d, y) =>
    if 1 ≤ d && d ≤ daysInMonth m y && 1 ≤ y then
      some (pad4 y ++ ("-") ++ pad2 m ++ ("-") ++ pad2 d ++ ("T00:00:00Z"))
    else none

/-! Event enrichment (`enrich_event`). -/

/-- Input of `enrich_event`: a scored tweet with its two required fields
(`tweet_id`, `text`); a tweet missing one of them is rejected before any
of the behaviour modelled here. -/
structure Tweet where
  tweet_id : String
  text : String

/-- Enriched event record produced by `enrich_event`. -/
structure EnrichedEvent where
  tweet_id : String
  prize_value : ℚ
  duration_hours : ℕ
  roi_score : ℚ
  currency_detected : String
  registration_deadline : Option String
deriving Repr, DecidableEq

/-- Model of `enrich_event`: a failed prize extraction (`ValueError`)
falls back to `(0, "USD")`, a failed duration parse falls back to 48
hours, and the ROI is `calculate_roi(prize, duration)` guarded by the
Python truthiness test `if prize and duration` (so the guard makes the
`calculate_roi` error branch unreachable and the quotient is exact). -/
def enrich_event (t : Tweet) : EnrichedEvent :=
  let pc := (extract_prize_amount t.text).getD (0, ("USD"))
  let duration := (parse_duration t.text).getD 48
  let roi : ℚ := if pc.1 ≠ 0 ∧ duration ≠ 0 then pc.1 / (duration : ℚ) else 0
  { tweet_id := t.tweet_id
    prize_value := pc.1
    duration_hours := duration
    roi_score := roi
    currency_detected := pc.2
    registration_deadline := detect_deadline t.text }

/-! Relevance scoring (src/backend/scoring.py).  The keyword catalog
(`sources/catalog.json`) is runtime data of the repository, so the
scoring functions are parameterised over its content. -/

/-- Catalog data of `sources/catalog.json` as consumed by the scorer: the
hashtag entries (tag together with its `relevance` tier) and the plain
keyword list. -/
structure Catalog where
  hashtags : List (String × String)
  keywords : List String

/-- Generic hackathon indicators of `extract_keywords`. -/
def hackathonIndicators : List String :=
  [ ("hackathon"), ("hack"), ("challenge"), ("competition"), ("sprint") ]

/-- Second loop of `extract_keywords`: append each generic indicator that
occurs in the lowered text and is not already in the found list. -/
def addIndicators (textLower : String) : List String → List String → List String
  | acc, [] => acc
  | acc, i :: is =>
    addIndicators textLower
      (if strSubstr textLower i && !(acc.contains i) then acc ++ [i] else acc) is

/-- Model of `extract_keywords`: catalog keywords whose lowering occurs in
the lowered text (in catalog order, original casing kept), then the
generic indicators not already found. -/
def extract_keywords (catalogKeywords : List String) (text : String) : List String :=
  let textLower := strLower text
  let found := catalogKeywords.filter (fun k => strSubstr textLower (strLower k))
  addIndicators textLower found hackathonIndicators

/-- AI term family of `assess_topic_confidence`. -/
def aiTerms : List String :=
  [ ("ai"), ("artificial intelligence"), ("machine learning"), ("ml"),
    ("neural"), ("deep learning") ]

/-- Crypto term family of `assess_topic_confidence`. -/
def cryptoTerms : List String :=
  [ ("crypto"), ("blockchain"), ("bitcoin"), ("ethereum"), ("defi"),
    ("web3"), ("nft") ]

/-- Model of `assess_topic_confidence`: count the terms of each family
occurring in the lowered text, take the larger count, scale by 0.2 and
cap at 1.0. -/
def assess_topic_confidence (text : String) : ℚ :=
  let textLower := strLower text
  let aiScore := (aiTerms.filter (fun t => strSubstr textLower t)).length
  let cryptoScore := (cryptoTerms.filter (fun t => strSubstr textLower t)).length
  min ((max aiScore cryptoScore : ℚ) * (2 / 10)) 1

/-- Model of `check_follower_fit`, parameterised over the configured
bounds (`thresholds.follower_min` / `follower_max` of the config); the
`ValueError` of a negative count is the error case. -/
def check_follower_fit (followerMin followerMax : ℤ) (followerCount : ℤ) : Except String ℕ :=
  if followerCount < 0 then .error ("Follower count cannot be negative")
  else .ok (if followerMin ≤ followerCount ∧ followerCount ≤ followerMax then 1 else 0)

/-- Insertion into the weight dictionary of `_build_keyword_weights`,
with Python dict semantics: an existing key is overwritten in place, a
new key is appended. -/
def dictInsert (m : List (String × ℚ)) (k : String) (v : ℚ) : List (String × ℚ) :=
  if m.any (fun p => p.1 = k) then
    m.map (fun p => if p.1 = k then (k, v) else p)
  else m ++ [(k, v)]

/-- First value of a key in the weight dictionary. -/
def dictGet? (m : List (String × ℚ)) (k : String) : Option ℚ :=
  (m.find? (fun p => p.1 = k)).map (fun p => p.2)

/-- Relevance tier weight of a hashtag in `_build_keyword_weights`. -/
def hashtagWeight (relevance : String) : ℚ :=
  if relevance = ("High") then 2
  else if relevance = ("Medium") then 12 / 10
  else 8 / 10

/-- Moderate-weight hackathon indicators added last in
`_build_keyword_weights` (they overwrite earlier entries of equal key). -/
def indicatorWeights : List (String × ℚ) :=
  [ (("hackathon"), 1), (("hack"), 8 / 10), (("challenge"), 8 / 10),
    (("competition"), 8 / 10), (("sprint"), 8 / 10), (("bounty"), 1),
    (("contest"), 6 / 10) ]

/-- Model of `_build_keyword_weights`: hashtags by relevance tier, then
catalog keywords at weight 1.6, then the fixed indicator weights, with
dict-overwrite semantics throughout (keys are lowered). -/
def _build_keyword_weights (cat : Catalog) : List (String × ℚ) :=
  let w := cat.hashtags.foldl
    (fun m h => dictInsert m (strLower h.1) (hashtagWeight h.2)) []
  let w := cat.keywords.foldl (fun m k => dictInsert m (strLower k) (16 / 10)) w
  indicatorWeights.foldl (fun m p => dictInsert m p.1 p.2) w

/-- Model of `score_keywords_presence`: 0 for the empty list; with the
catalog unavailable (`none`, the `FileNotFoundError`/`JSONDecodeError`
fallback) the plain keyword count; otherwise the weighted sum, where an
unknown hashtag falls back to a scan of the dictionary items (default
0.4) and any other unknown keyword scores 0.4. -/
def score_keywords_presence (catalog : Option Catalog) (keywords : List String) : ℚ :=
  if keywords.isEmpty then 0
  else
    match catalog with
    | none => (keywords.length : ℚ)
    | some cat =>
      let weights := _build_keyword_weights cat
      keywords.foldl
        (fun acc k =>
          let kl := strLower k
          match dictGet? weights kl with
          | some w => acc + w
          | none =>
            if k.startsWith ("#") then
              acc + ((weights.find? (fun p =>
                p.1.startsWith ("#") && strLower p.1 = kl)).map (fun p => p.2) |>.getD (4 / 10))
            else acc + 4 / 10)
        0

/-- Raw tweet as consumed by `calculate_relevance_score` (the three
required fields of `validate_tweet_object`, plus the optional
`expanded_url`). -/
structure RawTweet where
  id : String
  text : String
  followers_count : ℤ
  expanded_url : Option String

/-- Score record returned by `calculate_relevance_score`. -/
structure ScoreResult where
  tweet_id : String
  score : ℚ
  account_followers : ℤ
  keyword_matches : List String
  follower_fit : ℕ
  expanded_url : String
deriving Repr, DecidableEq

/-- Model of `calculate_relevance_score`: the weighted scoring formula
over follower fit, normalised keyword score and topic confidence, capped
at 1.0.  `cat` is the catalog used by `extract_keywords`;
`weightCatalog` is the catalog as seen by `score_keywords_presence`
(`none` when its load fails, in which case it falls back to counting). -/
def calculate_relevance_score (followerMin followerMax : ℤ)
    (cat : Catalog) (weightCatalog : Option Catalog) (tweet : RawTweet) :
    Except String ScoreResult :=
  match check_follower_fit followerMin followerMax tweet.followers_count with
  | .error e => .error e
  | .ok follower_fit =>
    let keywords := extract_keywords cat.keywords tweet.text
    let topic_confidence := assess_topic_confidence tweet.text
    let keyword_score := score_keywords_presence weightCatalog keywords
    let normalized_keyword_score := min (keyword_score * (2 / 100)) (2 / 10)
    let score := (follower_fit : ℚ) * (3 / 10) + normalized_keyword_score
      + topic_confidence * (5 / 10)
    .ok { tweet_id := tweet.id
          score := min score 1
          account_followers := tweet.followers_count
          keyword_matches := keywords
          follower_fit := follower_fit
          expanded_url := tweet.expanded_url.getD ("") }

/-! Alert delivery layer (src/backend/alert.py) and the routing loop of
src/backend/demo_run.py.  Events reaching this layer are plain records
whose keys may be missing, so every field is optional here. -/

/-- Enriched event as seen by the alert layer: a record whose keys can be
absent (`none` also stands for a JSON `null` value, which Python's
`event.get(...)` treats the same as a missing key in the truthiness
tests below). -/
structure AlertEvent where
  tweet_id : Option String
  prize_value : Option ℚ
  duration_hours : Option ℤ
  roi_score : Option ℚ
  currency_detected : Option String
  registration_deadline : Option String
  expanded_url : Option String
deriving Repr, DecidableEq

/-- Python truthiness of `event.get(field)` for a string field: false for
a missing key / `None` and for the empty string. -/
def truthyStr : Option String → Bool
  | none => false
  | some s => !(s == (""))

/-- Model of `validate_enrichment_data`: the four required fields are
present. -/
def validate_enrichment_data (e : AlertEvent) : Bool :=
  e.tweet_id.isSome && e.prize_value.isSome && e.duration_hours.isSome
    && e.roi_score.isSome

/-- Rendering of a rational message field (the exact decimal rendering of
Python's f-string is immaterial to the claims, which only constrain the
message structure). -/
def ratStr (q : ℚ) : String := toString q

/-- Model of `format_alert_message`: `ValueError` when one of the three
mandatory fields is missing, otherwise the shared message template with
the deadline line and the source link appended when truthy. -/
def format_alert_message (e : AlertEvent) : Except String String :=
  if e.prize_value.isNone || e.duration_hours.isNone || e.currency_detected.isNone then
    .error ("Event missing required fields")
  else
    let message := ("Prize: ") ++ ratStr (e.prize_value.getD 0) ++ (" ")
      ++ e.currency_detected.getD ("") ++ ("\nDuration: ")
      ++ toString (e.duration_hours.getD 0) ++ ("h")
    let message :=
      if truthyStr e.registration_deadline then
        message ++ ("\nDeadline: ") ++ e.registration_deadline.getD ("")
      else message
    let message :=
      if truthyStr e.expanded_url then message ++ ("\n") ++ e.expanded_url.getD ("")
      else message
    .ok message

/-- Model of `check_alert_threshold`: the fixed numeric cutoff of the
source (`roi_score > 200.0`); the configured percentile is read but
unused there. -/
def check_alert_threshold (roi_score : ℚ) : Bool :=
  decide (200 < roi_score)

/-- Routing decision of the alert router. -/
inductive RoutingDecision where
  | immediate
  | digest
deriving Repr, DecidableEq

/-- Model of the routing loop of demo_run.py (step 4): an enriched event
goes to the immediate alert when `check_alert_threshold(event.get('roi_score', 0))`
holds, and is queued for the digest otherwise. -/
def route (e : AlertEvent) : RoutingDecision :=
  if check_alert_threshold (e.roi_score.getD 0) then .immediate else .digest

/-- Model of `queue_for_digest` acting on the persisted queue state:
`ValueError` on invalid event data, otherwise the event is appended. -/
def queue_for_digest (e : AlertEvent) (queue : List AlertEvent) :
    Except String (List AlertEvent) :=
  if !validate_enrichment_data e then .error ("Invalid event data")
  else .ok (queue ++ [e])

/-- Formatting of every queued event in order, propagating the first
`ValueError` (the loop body of `send_daily_digest`). -/
def formatAll : List AlertEvent → Except String (List String)
  | [] => .ok []
  | e :: es =>
    match format_alert_message e with
    | .error err => .error err
    | .ok m =>
      match formatAll es with
      | .error err => .error err
      | .ok ms => .ok (m :: ms)

/-- Model of `send_daily_digest` acting on the persisted queue state,
returning the new queue, the success flag and the dispatched messages.
An empty queue is a no-op success; otherwise every event is formatted and
dispatched and only then is the queue overwritten with the empty list —
a formatting `ValueError` propagates before the overwrite, leaving the
queue file untouched. -/
def send_daily_digest (queue : List AlertEvent) :
    List AlertEvent × Bool × List String :=
  if queue.isEmpty then (queue, true, [])
  else
    match formatAll queue with
    | .ok msgs => ([], true, msgs)
    | .error _ => (queue, false, [])

/-! Concrete inputs used by the claims, and small helper notions for the
theorems below. -/

/-- Post text of concrete scenario 1 of the specification. -/
def scenario1Text : String :=
  "AI Hackathon this weekend! $10.8k prize pool, 48-hour sprint. Solo developers welcome! #AIHack"

/-- A text with no prize and no duration mentions (concrete scenario 2;
the text is the no-prize fixture of the repository's own test suite). -/
def scenario2Text : String := "Just a regular tech meetup"

/-- A text whose first duration match has a zero amount. -/
def zeroHourText : String := "0 hour"

/-- A text with a nonzero prize and a positive parsed duration. -/
def prized48hText : String := "$96 prize, 48 hour sprint"

/-- A valid enriched event with ROI 250 (above the 200.0 cutoff). -/
def ev250 : AlertEvent :=
  { tweet_id := some ("r1"), prize_value := some 12000, duration_hours := some 48,
    roi_score := some 250, currency_detected := some ("USD"),
    registration_deadline := none, expanded_url := none }

/-- A valid enriched event with ROI 80 (below the 200.0 cutoff). -/
def ev80 : AlertEvent :=
  { tweet_id := some ("r2"), prize_value := some 100, duration_hours := some 48,
    roi_score := some 80, currency_detected := some ("USD"),
    registration_deadline := none, expanded_url := none }

/-- An event that passes `validate_enrichment_data` (all four required
queue fields present) but lacks `currency_detected`, so that formatting
it fails mid-flush. -/
def evNoCurrency : AlertEvent :=
  { tweet_id := some ("r3"), prize_value := some 100, duration_hours := some 48,
    roi_score := some 80, currency_detected := none,
    registration_deadline := none, expanded_url := none }

/-- Occurrence of `t` as a contiguous substring of `s`. -/
def occursIn (t s : String) : Prop :=
  t.data <:+: s.data

/-! Helper lemmas about string concatenation. -/

theorem strData_append : ∀ a b : String, (a ++ b).data = a.data ++ b.data
  | ⟨_⟩, ⟨_⟩ => rfl

theorem strAppend_assoc : ∀ a b c : String, (a ++ b) ++ c = a ++ (b ++ c)
  | ⟨as⟩, ⟨bs⟩, ⟨cs⟩ => congrArg String.mk (List.append_assoc as bs cs)

theorem strAppend_empty : ∀ a : String, a ++ ("") = a
  | ⟨as⟩ => congrArg String.mk (List.append_nil as)

/-! Claim theorems. -/

/-- C1: on the scenario-1 post text the enrichment does NOT extract
10800 USD: the generic dollar pattern matches the text `$10` inside
`$10.8k` first, its whole match contains no `k`, so the shorthand
multiplier never fires and the extracted prize is 10 USD with ROI
10/48 = 5/24 instead of 225 (the duration does come out as 48, via the
no-match default).  This contradicts the claimed values 10800.0 and
225.0. -/
theorem c1_scenario1_prize_shorthand_bug :
    extract_prize_amount scenario1Text = some (10, ("USD"))
    ∧ (enrich_event ⟨("1"), scenario1Text⟩).currency_detected = ("USD")
    ∧ (enrich_event ⟨("1"), scenario1Text⟩).duration_hours = 48
    ∧ (enrich_event ⟨("1"), scenario1Text⟩).prize_value = 10
    ∧ (enrich_event ⟨("1"), scenario1Text⟩).roi_score = 5 / 24
    ∧ (enrich_event ⟨("1"), scenario1Text⟩).prize_value ≠ 10800
    ∧ (enrich_event ⟨("1"), scenario1Text⟩).roi_score ≠ 225 := by
  have hp : extract_prize_amount scenario1Text = some (10, ("USD")) := by decide
  have hd : parse_duration scenario1Text = none := by decide
  refine ⟨hp, ?_, ?_, ?_, ?_, ?_, ?_⟩ <;>
    simp [enrich_event, hp, hd] <;> norm_num

/-- C6: `check_follower_fit` returns 1 on a non-negative count exactly
when the count lies within the configured inclusive bounds, returns 0 on
a non-negative count exactly when it does not, and fails with the
invalid-input error on every negative count. -/
theorem c6_check_follower_fit (mn mx f : ℤ) :
    (0 ≤ f →
      ((check_follower_fit mn mx f = .ok 1 ↔ mn ≤ f ∧ f ≤ mx)
        ∧ (check_follower_fit mn mx f = .ok 0 ↔ ¬(mn ≤ f ∧ f ≤ mx))))
    ∧ (f < 0 →
      check_follower_fit mn mx f = .error ("Follower count cannot be negative")) := by
  constructor
  · intro h0
    have hnl : ¬ f < 0 := not_lt.mpr h0
    rw [check_follower_fit, if_neg hnl]
    by_cases h : mn ≤ f ∧ f ≤ mx
    · rw [if_pos h]
      exact ⟨⟨fun _ => h, fun _ => rfl⟩,
        ⟨fun he => absurd (Except.ok.inj he) one_ne_zero, fun hn => absurd h hn⟩⟩
    · rw [if_neg h]
      exact ⟨⟨fun he => absurd (Except.ok.inj he) zero_ne_one, fun hc => absurd hc h⟩,
        ⟨fun _ => h, fun _ => rfl⟩⟩
  · intro hneg
    rw [check_follower_fit, if_pos hneg]

/-- Witness for C6 at the configured bounds 2000 and 50000: 15000 fits,
100000 does not, and a negative count is rejected. -/
theorem c6_check_follower_fit_witness :
    (check_follower_fit 2000 50000 15000 = .ok 1)
    ∧ (check_follower_fit 2000 50000 100000 = .ok 0)
    ∧ (check_follower_fit 2000 50000 (-1)
        = .error ("Follower count cannot be negative")) :=
  ⟨(((c6_check_follower_fit 2000 50000 15000).1 (by norm_num)).1).mpr (by norm_num),
   (((c6_check_follower_fit 2000 50000 100000).1 (by norm_num)).2).mpr (by norm_num),
   (c6_check_follower_fit 2000 50000 (-1)).2 (by norm_num)⟩

/-- C7: when no prize pattern matches, enrichment proceeds with prize 0
and currency USD; when no duration pattern matches, the duration
defaults to 48; with neither, the event has prize 0, duration 48 and
ROI 0. -/
theorem c7_enrich_event_defaults (t : Tweet) :
    (extract_prize_amount t.text = none →
      (enrich_event t).prize_value = 0
        ∧ (enrich_event t).currency_detected = ("USD"))
    ∧ (parse_duration t.text = none → (enrich_event t).duration_hours = 48)
    ∧ (extract_prize_amount t.text = none → parse_duration t.text = none →
      (enrich_event t).prize_value = 0
        ∧ (enrich_event t).duration_hours = 48
        ∧ (enrich_event t).roi_score = 0) := by
  refine ⟨fun hp => ?_, fun hd => ?_, fun hp hd => ?_⟩
  · constructor <;> simp [enrich_event, hp]
  · simp [enrich_event, hd]
  · refine ⟨?_, ?_, ?_⟩ <;> simp [enrich_event, hp, hd]

/-- Witness for C7 at the no-prize, no-duration text of concrete
scenario 2. -/
theorem c7_enrich_event_defaults_witness :
    extract_prize_amount scenario2Text = none
    ∧ parse_duration scenario2Text = none
    ∧ (enrich_event ⟨("2"), scenario2Text⟩).prize_value = 0
    ∧ (enrich_event ⟨("2"), scenario2Text⟩).duration_hours = 48
    ∧ (enrich_event ⟨("2"), scenario2Text⟩).roi_score = 0 := by
  have hp : extract_prize_amount scenario2Text = none := by decide
  have hd : parse_duration scenario2Text = none := by decide
  have h := (c7_enrich_event_defaults ⟨("2"), scenario2Text⟩).2.2 hp hd
  exact ⟨hp, hd, h.1, h.2.1, h.2.2⟩

/-- C8: `calculate_roi` fails with the invalid-duration error exactly
when the duration is non-positive, and otherwise returns exactly the
quotient of prize by duration. -/
theorem c8_calculate_roi_spec (p d : ℚ) :
    (calculate_roi p d = .error ("Duration must be positive") ↔ d ≤ 0)
    ∧ (0 < d → calculate_roi p d = .ok (p / d)) := by
  constructor
  · constructor
    · intro h
      by_contra hc
      rw [calculate_roi, if_neg hc] at h
      exact Except.noConfusion h
    · intro h
      rw [calculate_roi, if_pos h]
  · intro h
    rw [calculate_roi, if_neg (not_le.mpr h)]

/-- Witness for C8: `calculate_roi 10000 0` raises, and
`calculate_roi 10000 48` returns the exact quotient. -/
theorem c8_calculate_roi_spec_witness :
    (calculate_roi 10000 0 = .error ("Duration must be positive"))
    ∧ (calculate_roi 10000 48 = .ok (10000 / 48)) :=
  ⟨(c8_calculate_roi_spec 10000 0).1.mpr le_rfl,
   (c8_calculate_roi_spec 10000 48).2 (by norm_num)⟩

/-- C2 counterexample: on the text `0 hour` the first duration pattern
matches the amount 0, `enrich_event` stores `duration_hours = 0`, and so
the claimed invariant `duration_hours > 0` fails on an accepted post. -/
theorem c2_zero_duration_counterexample :
    parse_duration zeroHourText = some 0
    ∧ (enrich_event ⟨("3"), zeroHourText⟩).duration_hours = 0
    ∧ ¬ 0 < (enrich_event ⟨("3"), zeroHourText⟩).duration_hours := by
  refine ⟨by decide, by decide, by decide⟩

/-- C2 (amended): enriched events can carry `duration_hours = 0` (when
the matched duration amount is zero, as in `0 hour`), but whenever the
stored duration is positive the stored ROI equals exactly the stored
prize divided by the stored duration — the two fields are never
inconsistent. -/
theorem c2_roi_recomputed (t : Tweet)
    (h : 0 < (enrich_event t).duration_hours) :
    (enrich_event t).roi_score
      = (enrich_event t).prize_value / ((enrich_event t).duration_hours : ℚ) := by
  simp only [enrich_event] at h ⊢
  by_cases hp : ((extract_prize_amount t.text).getD (0, ("USD"))).1 = 0
  · rw [hp]
    simp
  · have hd : (parse_duration t.text).getD 48 ≠ 0 := Nat.pos_iff_ne_zero.mp h
    rw [if_pos ⟨hp, hd⟩]

/-- Witness for C2 on a text with prize 96 USD and a 48-hour duration. -/
theorem c2_roi_recomputed_witness :
    0 < (enrich_event ⟨("4"), prized48hText⟩).duration_hours
    ∧ (enrich_event ⟨("4"), prized48hText⟩).roi_score
        = (enrich_event ⟨("4"), prized48hText⟩).prize_value
          / ((enrich_event ⟨("4"), prized48hText⟩).duration_hours : ℚ) :=
  ⟨by decide, c2_roi_recomputed ⟨("4"), prized48hText⟩ (by decide)⟩

/-! Helper lemmas about `formatAll`. -/

theorem formatAll_length {q : List AlertEvent} {msgs : List String}
    (h : formatAll q = .ok msgs) : msgs.length = q.length := by
  induction q generalizing msgs with
  | nil =>
    rw [formatAll] at h
    cases h
    rfl
  | cons e es ih =>
    rw [formatAll] at h
    cases hf : format_alert_message e with
    | error err => rw [hf] at h; exact Except.noConfusion h
    | ok m =>
      rw [hf] at h
      cases hr : formatAll es with
      | error err => rw [hr] at h; exact Except.noConfusion h
      | ok ms =>
        rw [hr] at h
        cases h
        simp [ih hr]

theorem formatAll_ok_of_mem {q : List AlertEvent} {msgs : List String}
    (h : formatAll q = .ok msgs) :
    ∀ e ∈ q, ∃ m, format_alert_message e = .ok m := by
  induction q generalizing msgs with
  | nil => intro e he; exact absurd he (List.not_mem_nil e)
  | cons x es ih =>
    intro e he
    rw [formatAll] at h
    cases hf : format_alert_message x with
    | error err => rw [hf] at h; exact Except.noConfusion h
    | ok m =>
      rw [hf] at h
      cases hr : formatAll es with
      | error err => rw [hr] at h; exact Except.noConfusion h
      | ok ms =>
        rcases List.mem_cons.mp he with rfl | hes
        · exact ⟨m, hf⟩
        · exact ih hr e hes

theorem formatAll_error_of_mem {q : List AlertEvent} {e : AlertEvent} {err : String}
    (he : e ∈ q) (hf : format_alert_message e = .error err) :
    ∃ err2, formatAll q = .error err2 := by
  induction q with
  | nil => exact absurd he (List.not_mem_nil e)
  | cons x es ih =>
    rcases List.mem_cons.mp he with rfl | hes
    · rw [formatAll, hf]
      exact ⟨err, rfl⟩
    · cases hx : format_alert_message x with
      | error err3 =>
        rw [formatAll, hx]
        exact ⟨err3, rfl⟩
      | ok m =>
        obtain ⟨err2, h2⟩ := ih hes
        rw [formatAll, hx, h2]
        exact ⟨err2, rfl⟩

/-- C10: the digest queue survives a mid-flush formatting failure: if
some queued event cannot be formatted, `send_daily_digest` reports
failure and the persisted queue is exactly the input queue; conversely
the queue is overwritten with the empty list only when every queued
event was formatted (and hence dispatched). -/
theorem c10_flush_failure_keeps_queue (q : List AlertEvent) :
    ((∃ e err, e ∈ q ∧ format_alert_message e = .error err) →
      send_daily_digest q = (q, false, []))
    ∧ ((send_daily_digest q).1 = [] →
      ∀ e ∈ q, ∃ m, format_alert_message e = .ok m) := by
  constructor
  · rintro ⟨e, err, he, hf⟩
    obtain ⟨err2, h2⟩ := formatAll_error_of_mem he hf
    have hne : ¬ q.isEmpty = true := by
      cases q with
      | nil => exact absurd he (List.not_mem_nil e)
      | cons x es => simp [List.isEmpty]
    rw [send_daily_digest, if_neg hne, h2]
  · intro hq
    cases hemp : q.isEmpty with
    | true =>
      intro e he
      rw [List.isEmpty_iff] at hemp
      subst hemp
      exact absurd he (List.not_mem_nil e)
    | false =>
      rw [send_daily_digest, hemp] at hq
      simp only [Bool.false_eq_true, if_false] at hq
      cases hfa : formatAll q with
      | error err =>
        rw [hfa] at hq
        simp only [] at hq
        rw [hq] at hemp
        simp [List.isEmpty] at hemp
      | ok msgs => exact formatAll_ok_of_mem hfa

/-- Witness for C10: a queue holding a valid event and an event without
`currency_detected` is reported back unchanged by the flush. -/
theorem c10_flush_failure_keeps_queue_witness :
    send_daily_digest [ev80, evNoCurrency] = ([ev80, evNoCurrency], false, []) :=
  (c10_flush_failure_keeps_queue [ev80, evNoCurrency]).1
    ⟨evNoCurrency, ("Event missing required fields"), by simp, rfl⟩

/-- C4: routing sends an event to the immediate channel exactly when its
ROI exceeds the 200.0 cutoff (so ROI 250 is immediate and ROI 80 goes to
the digest); a validated event queued by `queue_for_digest` is appended
to (hence present in) the queue; a flush whose formatting succeeds
dispatches one message per queued event and clears the queue, so the
queued event is absent afterwards; and flushing an empty queue is a
no-op success. -/
theorem c4_routing_and_digest (e : AlertEvent) (q : List AlertEvent)
    (hv : validate_enrichment_data e = true) :
    (∀ x : AlertEvent, route x = .immediate ↔ 200 < x.roi_score.getD 0)
    ∧ (∀ x : AlertEvent, x.roi_score = some 250 → route x = .immediate)
    ∧ (∀ x : AlertEvent, x.roi_score = some 80 → route x = .digest)
    ∧ queue_for_digest e q = .ok (q ++ [e])
    ∧ e ∈ q ++ [e]
    ∧ (∀ msgs, formatAll (q ++ [e]) = .ok msgs →
        send_daily_digest (q ++ [e]) = ([], true, msgs)
          ∧ msgs.length = (q ++ [e]).length
          ∧ e ∉ (send_daily_digest (q ++ [e])).1)
    ∧ send_daily_digest [] = ([], true, []) := by
  have hroute : ∀ x : AlertEvent, route x = .immediate ↔ 200 < x.roi_score.getD 0 := by
    intro x
    rw [route, check_alert_threshold]
    by_cases h : 200 < x.roi_score.getD 0
    · simp [h]
    · simp [h]
  refine ⟨hroute, ?_, ?_, ?_, ?_, ?_, rfl⟩
  · intro x hx
    exact (hroute x).mpr (by rw [hx]; norm_num)
  · intro x hx
    rw [route, check_alert_threshold, hx]
    norm_num
  · rw [queue_for_digest, hv]
    simp
  · simp
  · intro msgs hm
    have hne : ¬ (q ++ [e]).isEmpty = true := by simp
    have hsend : send_daily_digest (q ++ [e]) = ([], true, msgs) := by
      rw [send_daily_digest, if_neg hne, hm]
    refine ⟨hsend, formatAll_length hm, ?_⟩
    rw [hsend]
    exact List.not_mem_nil e

/-- Witness for C4: concrete routing decisions at ROI 250 and 80, the
concrete queueing of the ROI-80 event, its flush, and the empty flush. -/
theorem c4_routing_and_digest_witness :
    route ev250 = .immediate
    ∧ route ev80 = .digest
    ∧ queue_for_digest ev80 [] = .ok [ev80]
    ∧ ev80 ∈ [ev80]
    ∧ send_daily_digest [ev80] = ([], true, [("Prize: 100 USD\nDuration: 48h")])
    ∧ send_daily_digest [] = ([], true, []) := by
  have h := c4_routing_and_digest ev80 [] (by rfl)
  have hf : formatAll [ev80] = .ok [("Prize: 100 USD\nDuration: 48h")] := by
    rw [formatAll, formatAll]
    rfl
  exact ⟨h.2.1 ev250 rfl, h.2.2.1 ev80 rfl, h.2.2.2.1, h.2.2.2.2.1,
    (h.2.2.2.2.2.1 _ hf).1, h.2.2.2.2.2.2⟩

/-! Helper lemmas about substring occurrence. -/

theorem occursIn_self (t : String) : occursIn t t :=
  ⟨[], [], by simp⟩

theorem occursIn_append_left (t s u : String) (h : occursIn t s) :
    occursIn t (s ++ u) := by
  obtain ⟨a, b, hab⟩ := h
  exact ⟨a, b ++ u.data, by rw [strData_append, ← hab]; simp [List.append_assoc]⟩

theorem occursIn_append_right (t s u : String) (h : occursIn t s) :
    occursIn t (u ++ s) := by
  obtain ⟨a, b, hab⟩ := h
  exact ⟨u.data ++ a, b, by rw [strData_append, ← hab]; simp [List.append_assoc]⟩

theorem occursIn_of_parts (t s a b : String) (h : s = a ++ t ++ b) :
    occursIn t s := by
  subst h
  exact occursIn_append_left _ _ _ (occursIn_append_right _ _ _ (occursIn_self t))

theorem truthyStr_some {s : String} (h : s ≠ ("")) : truthyStr (some s) = true := by
  rw [truthyStr]
  simp [h]

/-- C9: `format_alert_message` fails with the validation error exactly
when one of `prize_value`, `duration_hours`, `currency_detected` is
missing; on success the message is the shared template — the mandatory
prize-with-currency and duration parts, then a deadline line exactly
when the deadline is present (truthy), then the source link exactly when
a source URL is present (truthy) — and the message therefore contains
the prize amount with its currency, the duration in hours, the deadline
when present and the link when present. -/
theorem c9_format_alert_message (e : AlertEvent) :
    (format_alert_message e = .error ("Event missing required fields")
      ↔ (e.prize_value = none ∨ e.duration_hours = none ∨ e.currency_detected = none))
    ∧ ((∃ m, format_alert_message e = .ok m)
      ↔ ¬(e.prize_value = none ∨ e.duration_hours = none ∨ e.currency_detected = none))
    ∧ (∀ p d c, e.prize_value = some p → e.duration_hours = some d →
        e.currency_detected = some c →
        format_alert_message e =
          .ok ((("Prize: ") ++ ratStr p ++ (" ") ++ c ++ ("\nDuration: ")
                ++ toString d ++ ("h"))
            ++ (if truthyStr e.registration_deadline then
                  ("\nDeadline: ") ++ e.registration_deadline.getD ("") else (""))
            ++ (if truthyStr e.expanded_url then
                  ("\n") ++ e.expanded_url.getD ("") else (""))))
    ∧ (∀ p d c m, e.prize_value = some p → e.duration_hours = some d →
        e.currency_detected = some c → format_alert_message e = .ok m →
        occursIn (ratStr p ++ (" ") ++ c) m
          ∧ occursIn (("Duration: ") ++ toString d ++ ("h")) m
          ∧ (∀ dl, e.registration_deadline = some dl → dl ≠ ("") →
              occursIn (("Deadline: ") ++ dl) m)
          ∧ (∀ u, e.expanded_url = some u → u ≠ ("") → occursIn u m)) := by
  have hcond : (e.prize_value.isNone || e.duration_hours.isNone
      || e.currency_detected.isNone) = true
      ↔ (e.prize_value = none ∨ e.duration_hours = none ∨ e.currency_detected = none) := by
    simp [Option.isNone_iff_eq_none, Bool.or_eq_true, or_assoc]
  have hshape : ∀ p d c, e.prize_value = some p → e.duration_hours = some d →
      e.currency_detected = some c →
      format_alert_message e =
        .ok ((("Prize: ") ++ ratStr p ++ (" ") ++ c ++ ("\nDuration: ")
              ++ toString d ++ ("h"))
          ++ (if truthyStr e.registration_deadline then
                ("\nDeadline: ") ++ e.registration_deadline.getD ("") else (""))
          ++ (if truthyStr e.expanded_url then
                ("\n") ++ e.expanded_url.getD ("") else (""))) := by
    intro p d c hp hd hc
    rw [format_alert_message]
    rw [if_neg (by simp [hp, hd, hc])]
    rw [hp, hd, hc]
    simp only [Option.getD_some]
    by_cases ht1 : truthyStr e.registration_deadline = true
    · rw [if_pos ht1, if_pos ht1]
      by_cases ht2 : truthyStr e.expanded_url = true
      · rw [if_pos ht2, if_pos ht2]
        simp only [strAppend_assoc]
      · rw [if_neg ht2, if_neg ht2]
        simp only [strAppend_assoc, strAppend_empty]
    · rw [if_neg ht1, if_neg ht1]
      by_cases ht2 : truthyStr e.expanded_url = true
      · rw [if_pos ht2, if_pos ht2]
        simp only [strAppend_assoc, strAppend_empty]
      · rw [if_neg ht2, if_neg ht2]
        simp only [strAppend_assoc, strAppend_empty]
  refine ⟨?_, ?_, hshape, ?_⟩
  · by_cases hm : e.prize_value = none ∨ e.duration_hours = none
        ∨ e.currency_detected = none
    · rw [format_alert_message, if_pos (hcond.mpr hm)]
      simp [hm]
    · rw [format_alert_message,
        if_neg (fun hc => hm (hcond.mp hc))]
      simp [hm]
  · by_cases hm : e.prize_value = none ∨ e.duration_hours = none
        ∨ e.currency_detected = none
    · rw [format_alert_message, if_pos (hcond.mpr hm)]
      simp [hm]
    · rw [format_alert_message,
        if_neg (fun hc => hm (hcond.mp hc))]
      simp [hm]
  · intro p d c m hp hd hc hm
    rw [hshape p d c hp hd hc] at hm
    have hmEq := Except.ok.inj hm
    subst hmEq
    have hnd : ("\nDuration: ") = ("\n") ++ ("Duration: ") := by decide
    have hndl : ("\nDeadline: ") = ("\n") ++ ("Deadline: ") := by decide
    refine ⟨?_, ?_, ?_, ?_⟩
    · exact occursIn_of_parts _ _ (("Prize: "))
        ((("\nDuration: ") ++ toString d ++ ("h"))
          ++ ((if truthyStr e.registration_deadline then
                ("\nDeadline: ") ++ e.registration_deadline.getD ("") else (""))
            ++ (if truthyStr e.expanded_url then
                  ("\n") ++ e.expanded_url.getD ("") else (""))))
        (by simp only [strAppend_assoc])
    · exact occursIn_of_parts _ _
        ((("Prize: ") ++ ratStr p ++ (" ") ++ c ++ ("\n")))
        ((if truthyStr e.registration_deadline then
            ("\nDeadline: ") ++ e.registration_deadline.getD ("") else (""))
          ++ (if truthyStr e.expanded_url then
                ("\n") ++ e.expanded_url.getD ("") else ("")))
        (by rw [hnd]; simp only [strAppend_assoc])
    · intro dl hdl hne
      rw [hdl]
      exact occursIn_of_parts _ _
        ((("Prize: ") ++ ratStr p ++ (" ") ++ c ++ ("\nDuration: ")
            ++ toString d ++ ("h") ++ ("\n")))
        ((if truthyStr e.expanded_url then
            ("\n") ++ e.expanded_url.getD ("") else ("")))
        (by
          rw [if_pos (truthyStr_some hne), hndl]
          simp only [Option.getD_some, strAppend_assoc])
    · intro u hu hne
      rw [hu]
      exact occursIn_of_parts _ _
        ((("Prize: ") ++ ratStr p ++ (" ") ++ c ++ ("\nDuration: ")
            ++ toString d ++ ("h"))
          ++ (if truthyStr e.registration_deadline then
                ("\nDeadline: ") ++ e.registration_deadline.getD ("") else (""))
          ++ ("\n"))
        (("")) (by
          rw [if_pos (truthyStr_some hne)]
          simp only [Option.getD_some, strAppend_assoc, strAppend_empty])

/-- Witness for C9: a fully-populated event formats to the full
template, an event without `currency_detected` is rejected, and the
containment facts hold on the concrete message. -/
theorem c9_format_alert_message_witness :
    format_alert_message
        { tweet_id := some ("w1"), prize_value := some 10800,
          duration_hours := some 48, roi_score := some 225,
          currency_detected := some ("USD"),
          registration_deadline := some ("2024-12-31T00:00:00Z"),
          expanded_url := some ("https://x.com/a/status/1") }
      = .ok (("Prize: 10800 USD\nDuration: 48h\nDeadline: 2024-12-31T00:00:00Z\nhttps://x.com/a/status/1"))
    ∧ format_alert_message evNoCurrency = .error ("Event missing required fields")
    ∧ occursIn (("Deadline: ") ++ ("2024-12-31T00:00:00Z"))
        (("Prize: 10800 USD\nDuration: 48h\nDeadline: 2024-12-31T00:00:00Z\nhttps://x.com/a/status/1")) := by
  have h := c9_format_alert_message
    { tweet_id := some ("w1"), prize_value := some 10800,
      duration_hours := some 48, roi_score := some 225,
      currency_detected := some ("USD"),
      registration_deadline := some ("2024-12-31T00:00:00Z"),
      expanded_url := some ("https://x.com/a/status/1") }
  have hfmt := h.2.2.1 10800 48 (("USD")) rfl rfl rfl
  have hmsg : format_alert_message
      { tweet_id := some ("w1"), prize_value := some 10800,
        duration_hours := some 48, roi_score := some 225,
        currency_detected := some ("USD"),
        registration_deadline := some ("2024-12-31T00:00:00Z"),
        expanded_url := some ("https://x.com/a/status/1") }
      = .ok (("Prize: 10800 USD\nDuration: 48h\nDeadline: 2024-12-31T00:00:00Z\nhttps://x.com/a/status/1")) := by
    rw [hfmt]
    rfl
  refine ⟨hmsg, ?_, ?_⟩
  · exact (c9_format_alert_message evNoCurrency).1.mpr (by simp [evNoCurrency])
  · have hocc := (h.2.2.2 10800 48 (("USD")) _ rfl rfl rfl hmsg).2.2.1
      (("2024-12-31T00:00:00Z")) rfl (by decide)
    exact hocc

/-! Helper lemmas for the scoring bound. -/

theorem dictInsert_forall {P : ℚ → Prop} {m : List (String × ℚ)} {k : String} {v : ℚ}
    (hm : ∀ p ∈ m, P p.2) (hv : P v) : ∀ p ∈ dictInsert m k v, P p.2 := by
  intro p hp
  rw [dictInsert] at hp
  split at hp
  · obtain ⟨q, hq, hqp⟩ := List.mem_map.mp hp
    by_cases hqk : q.1 = k
    · rw [if_pos hqk] at hqp
      rw [← hqp]
      exact hv
    · rw [if_neg hqk] at hqp
      rw [← hqp]
      exact hm q hq
  · rcases List.mem_append.mp hp with h | h
    · exact hm p h
    · rw [List.mem_singleton.mp h]
      exact hv

theorem foldl_dictInsert_forall {P : ℚ → Prop} {α : Type} {f : α → String} {g : α → ℚ}
    (l : List α) (m : List (String × ℚ)) (hm : ∀ p ∈ m, P p.2)
    (hg : ∀ a ∈ l, P (g a)) :
    ∀ p ∈ l.foldl (fun acc a => dictInsert acc (f a) (g a)) m, P p.2 := by
  induction l generalizing m with
  | nil => exact hm
  | cons a l ih =>
    exact ih _ (dictInsert_forall hm (hg a (List.mem_cons_self a l)))
      (fun b hb => hg b (List.mem_cons_of_mem a hb))

theorem hashtagWeight_nonneg (r : String) : 0 ≤ hashtagWeight r := by
  rw [hashtagWeight]
  split_ifs <;> norm_num

theorem buildWeights_nonneg (cat : Catalog) :
    ∀ p ∈ _build_keyword_weights cat, 0 ≤ p.2 := by
  rw [_build_keyword_weights]
  refine foldl_dictInsert_forall indicatorWeights _ ?_ ?_
  · refine foldl_dictInsert_forall cat.keywords _ ?_ ?_
    · refine foldl_dictInsert_forall cat.hashtags _ ?_ ?_
      · intro p hp
        exact absurd hp (List.not_mem_nil p)
      · intro a _
        exact hashtagWeight_nonneg a.2
    · intro a _
      norm_num
  · intro a ha
    fin_cases ha <;> norm_num

theorem score_keywords_presence_nonneg (c : Option Catalog) (ks : List String) :
    0 ≤ score_keywords_presence c ks := by
  rw [score_keywords_presence.eq_def]
  split
  · exact le_refl 0
  · cases c with
    | none => exact Nat.cast_nonneg _
    | some cat =>
      have hw := buildWeights_nonneg cat
      have hfold : ∀ (l : List String) (acc : ℚ), 0 ≤ acc →
          0 ≤ l.foldl (fun acc k =>
            let kl := strLower k
            match dictGet? (_build_keyword_weights cat) kl with
            | some w => acc + w
            | none =>
              if k.startsWith ("#") then
                acc + (((_build_keyword_weights cat).find? (fun p =>
                  p.1.startsWith ("#") && strLower p.1 = kl)).map (fun p => p.2)
                  |>.getD (4 / 10))
              else acc + 4 / 10) acc := by
        intro l
        induction l with
        | nil => intro acc h; exact h
        | cons k l ih =>
          intro acc hacc
          refine ih _ ?_
          cases hg : dictGet? (_build_keyword_weights cat) (strLower k) with
          | some w =>
            simp only [hg]
            refine add_nonneg hacc ?_
            rw [dictGet?] at hg
            cases hf : (_build_keyword_weights cat).find?
                (fun p => p.1 = strLower k) with
            | none => rw [hf] at hg; exact Option.noConfusion hg
            | some p =>
              rw [hf] at hg
              have hp := hw p (List.mem_of_find?_eq_some hf)
              have hw2 : p.2 = w := Option.some.inj hg
              rw [← hw2]
              exact hp
          | none =>
            simp only [hg]
            split
            · cases hf : (_build_keyword_weights cat).find? (fun p =>
                  p.1.startsWith ("#") && strLower p.1 = strLower k) with
              | none =>
                exact add_nonneg hacc (by norm_num)
              | some p =>
                have hp := hw p (List.mem_of_find?_eq_some hf)
                exact add_nonneg hacc (by simpa using hp)
            · exact add_nonneg hacc (by norm_num)
      exact hfold ks 0 (le_refl 0)

theorem assess_topic_confidence_nonneg (text : String) :
    0 ≤ assess_topic_confidence text := by
  rw [assess_topic_confidence]
  exact le_min (mul_nonneg (le_max_of_le_left (Nat.cast_nonneg _)) (by norm_num))
    zero_le_one

theorem assess_topic_confidence_le_one (text : String) :
    assess_topic_confidence text ≤ 1 := by
  rw [assess_topic_confidence]
  exact min_le_right _ _

/-- C3: for every post with a non-negative follower count the relevance
score lies in the unit interval, and it equals exactly
`follower_fit * 0.3 + min(keyword_weight_sum * 0.02, 0.2)
+ topic_confidence * 0.5` capped at 1.0. -/
theorem c3_relevance_score_bounds (mn mx : ℤ) (cat : Catalog) (wcat : Option Catalog)
    (t : RawTweet) (h : 0 ≤ t.followers_count) :
    ∃ s, calculate_relevance_score mn mx cat wcat t = .ok s
      ∧ 0 ≤ s.score ∧ s.score ≤ 1
      ∧ s.score = min ((s.follower_fit : ℚ) * (3 / 10)
          + min (score_keywords_presence wcat (extract_keywords cat.keywords t.text)
              * (2 / 100)) (2 / 10)
          + assess_topic_confidence t.text * (5 / 10)) 1 := by
  rw [calculate_relevance_score, check_follower_fit, if_neg (not_lt.mpr h)]
  refine ⟨_, rfl, ?_, ?_, rfl⟩
  · refine le_min (add_nonneg (add_nonneg ?_ ?_) ?_) zero_le_one
    · exact mul_nonneg (Nat.cast_nonneg _) (by norm_num)
    · exact le_min
        (mul_nonneg (score_keywords_presence_nonneg _ _) (by norm_num))
        (by norm_num)
    · exact mul_nonneg (assess_topic_confidence_nonneg _) (by norm_num)
  · exact min_le_right _ _

/-- Witness for C3 on a concrete post (empty catalog, text `ai hack`,
15000 followers). -/
theorem c3_relevance_score_bounds_witness :
    ∃ s, calculate_relevance_score 2000 50000 ⟨[], []⟩ (some ⟨[], []⟩)
        ⟨("3"), ("ai hack"), 15000, none⟩ = .ok s
      ∧ 0 ≤ s.score ∧ s.score ≤ 1 := by
  obtain ⟨s, h1, h2, h3, _⟩ := c3_relevance_score_bounds 2000 50000 ⟨[], []⟩
    (some ⟨[], []⟩) ⟨("3"), ("ai hack"), 15000, none⟩ (by norm_num)
  exact ⟨s, h1, h2, h3⟩

/-! Helper lemmas for keyword extraction. -/

theorem indicators_lower : ∀ i ∈ hackathonIndicators, strLower i = i := by decide

theorem addIndicators_spec (tl : String) :
    ∀ (is acc : List String),
      (∀ i ∈ is, i ∈ hackathonIndicators) →
      ((acc.map strLower).Nodup) →
      (∀ k ∈ acc, strLower k ∈ hackathonIndicators → k = strLower k) →
      (∃ s, addIndicators tl acc is = acc ++ s ∧ s.Sublist is
         ∧ (∀ j ∈ s, strSubstr tl j = true))
      ∧ ((addIndicators tl acc is).map strLower).Nodup
      ∧ (∀ i ∈ is, strSubstr tl i = true → i ∈ addIndicators tl acc is) := by
  intro is
  induction is with
  | nil =>
    intro acc _ hnd _
    refine ⟨⟨[], ?_, List.nil_sublist _, ?_⟩, ?_, ?_⟩
    · rw [addIndicators, List.append_nil]
    · intro j hj
      exact absurd hj (List.not_mem_nil j)
    · rw [addIndicators]
      exact hnd
    · intro i hi
      exact absurd hi (List.not_mem_nil i)
  | cons i is ih =>
    intro acc hmem hnd hlc
    rw [addIndicators]
    by_cases hc : (strSubstr tl i && !(acc.contains i)) = true
    · rw [if_pos hc]
      obtain ⟨hsub, hnc⟩ : strSubstr tl i = true ∧ (!acc.contains i) = true := by
        simpa using hc
      have hni : i ∉ acc := by simpa using hnc
      have hiInd : i ∈ hackathonIndicators := hmem i (List.mem_cons_self i is)
      have hlow : strLower i = i := indicators_lower i hiInd
      have hnd2 : ((acc ++ [i]).map strLower).Nodup := by
        rw [List.map_append, List.nodup_append]
        refine ⟨hnd, by simp, ?_⟩
        intro x hx
        simp only [List.map_cons, List.map_nil, List.mem_singleton]
        intro hxi
        obtain ⟨k, hk, hkx⟩ := List.mem_map.mp hx
        rw [hxi, hlow] at hkx
        have hkk : k = strLower k := hlc k hk (by rw [hkx]; exact hiInd)
        rw [hkk, hkx] at hk
        exact hni hk
      have hlc2 : ∀ k ∈ acc ++ [i], strLower k ∈ hackathonIndicators
          → k = strLower k := by
        intro k hk hkind
        rcases List.mem_append.mp hk with hk2 | hk2
        · exact hlc k hk2 hkind
        · rw [List.mem_singleton.mp hk2]
          exact hlow.symm
      obtain ⟨⟨s, hs1, hs2, hs3⟩, hnd3, hcomp⟩ := ih (acc ++ [i])
        (fun j hj => hmem j (List.mem_cons_of_mem i hj)) hnd2 hlc2
      refine ⟨⟨i :: s, ?_, List.Sublist.cons₂ i hs2, ?_⟩, hnd3, ?_⟩
      · rw [hs1, List.append_assoc]
        rfl
      · intro j hj
        rcases List.mem_cons.mp hj with rfl | hjs
        · exact hsub
        · exact hs3 j hjs
      · intro j hj hsubj
        rcases List.mem_cons.mp hj with rfl | hjs
        · rw [hs1]
          exact List.mem_append_left s (List.mem_append_right acc (List.mem_singleton_self j))
        · exact hcomp j hjs hsubj
    · rw [if_neg hc]
      obtain ⟨⟨s, hs1, hs2, hs3⟩, hnd3, hcomp⟩ := ih acc
        (fun j hj => hmem j (List.mem_cons_of_mem i hj)) hnd hlc
      refine ⟨⟨s, hs1, List.Sublist.cons i hs2, hs3⟩, hnd3, ?_⟩
      intro j hj hsubj
      rcases List.mem_cons.mp hj with rfl | hjs
      · have hin : j ∈ acc := by
          by_contra hni
          apply hc
          simp only [Bool.and_eq_true, Bool.not_eq_true']
          refine ⟨hsubj, ?_⟩
          simpa using hni
        rw [hs1]
        exact List.mem_append_left s hin
      · exact hcomp j hjs hsubj

/-- C5: for every text (over any catalog whose lowered keywords are
pairwise distinct and which spells indicator-colliding keywords in
lowercase — the catalog is a keyword-to-weight mapping per the spec),
`extract_keywords` returns only matched terms, in the scan order of the
catalog keywords followed by the generic indicators (first seen kept),
each term kept at most once under the case-insensitive matching it uses,
and it returns every term of the scan list that matches. -/
theorem c5_extract_keywords_dedup (ck : List String) (text : String)
    (h1 : (ck.map strLower).Nodup)
    (h2 : ∀ k ∈ ck, strLower k ∈ hackathonIndicators → k = strLower k) :
    ((extract_keywords ck text).map strLower).Nodup
    ∧ (extract_keywords ck text).Sublist (ck ++ hackathonIndicators)
    ∧ (∀ k ∈ extract_keywords ck text,
        strSubstr (strLower text) (strLower k) = true)
    ∧ (∀ k ∈ ck ++ hackathonIndicators,
        strSubstr (strLower text) (strLower k) = true →
        strLower k ∈ (extract_keywords ck text).map strLower) := by
  have hek : extract_keywords ck text
      = addIndicators (strLower text)
          (ck.filter (fun k => strSubstr (strLower text) (strLower k)))
          hackathonIndicators := rfl
  have hndF : (((ck.filter (fun k => strSubstr (strLower text) (strLower k))).map
      strLower).Nodup) :=
    h1.sublist (List.Sublist.map strLower (List.filter_sublist ck))
  have hlcF : ∀ k ∈ ck.filter (fun k => strSubstr (strLower text) (strLower k)),
      strLower k ∈ hackathonIndicators → k = strLower k :=
    fun k hk => h2 k (List.mem_of_mem_filter hk)
  obtain ⟨⟨s, hs1, hs2, hs3⟩, hnd2, hcomp⟩ := addIndicators_spec (strLower text)
    hackathonIndicators
    (ck.filter (fun k => strSubstr (strLower text) (strLower k)))
    (fun i hi => hi) hndF hlcF
  rw [hek]
  refine ⟨hnd2, ?_, ?_, ?_⟩
  · rw [hs1]
    exact List.Sublist.append (List.filter_sublist ck) hs2
  · intro k hk
    rw [hs1] at hk
    rcases List.mem_append.mp hk with h | h
    · exact (List.mem_filter.mp h).2
    · have hkind : k ∈ hackathonIndicators := hs2.subset h
      rw [indicators_lower k hkind]
      exact hs3 k h
  · intro k hk hsub
    rcases List.mem_append.mp hk with h | h
    · have hkF : k ∈ ck.filter (fun k => strSubstr (strLower text) (strLower k)) :=
        List.mem_filter.mpr ⟨h, hsub⟩
      refine List.mem_map_of_mem strLower ?_
      rw [hs1]
      exact List.mem_append_left s hkF
    · have hlk := indicators_lower k h
      rw [hlk] at hsub ⊢
      have hkR : k ∈ addIndicators (strLower text)
          (ck.filter (fun k => strSubstr (strLower text) (strLower k)))
          hackathonIndicators := hcomp k h hsub
      exact List.mem_map.mpr ⟨k, hkR, hlk⟩

/-- Witness for C5 on a one-keyword catalog and a concrete text: the
extraction result, its case-insensitive dedup and its scan-order
sublist property. -/
theorem c5_extract_keywords_dedup_witness :
    extract_keywords [("solo developer")] (("Solo developer hackathon sprint!"))
      = [("solo developer"), ("hackathon"), ("hack"), ("sprint")]
    ∧ ((extract_keywords [("solo developer")]
        (("Solo developer hackathon sprint!"))).map strLower).Nodup
    ∧ (extract_keywords [("solo developer")]
        (("Solo developer hackathon sprint!"))).Sublist
        ([("solo developer")] ++ hackathonIndicators) := by
  have h := c5_extract_keywords_dedup [("solo developer")]
    (("Solo developer hackathon sprint!")) (by decide) (by decide)
  exact ⟨by decide, h.1, h.2.1⟩

end HackSignal
